import Mathlib

/-
Verification of the kontrol key-pair storage (src/kontrol/keypair.go).

The Go code stores KeyPair values in two koding/cache in-memory caches,
one keyed by ID and one keyed by Public. The caches hold untyped values
(Go interface values); the getters type-assert the stored value back to
a KeyPair and report a malformed-value error when the assertion fails.
Here each cache is an association list with map semantics (Get returns a
NotFound error when the key is absent, Set inserts or overwrites, Delete
removes), the untyped cache slot is CacheValue (a KeyPair or some other
value placed there by backend misuse), and every storage operation is
translated with explicit state passing: it returns its Go result paired
with the storage state after the call.
-/

namespace Kite

/-- KeyPair defines a single key pair entity (keypair.go, type KeyPair). -/
structure KeyPair where
  ID : String
  Public : String
  Private : String
deriving DecidableEq

/-- A value held in a cache slot: the Go caches store interface values, so a
slot holds either a KeyPair or some other value put there by a misbehaving
backend (the type assertion in the getters guards against the latter). -/
inductive CacheValue where
  | keyPair (k : KeyPair)
  | other (tag : String)
deriving DecidableEq

/-- The errors the storage code produces: errNew models errors.New with the
given message (the three validation errors), notFound models
cache.ErrNotFound, and malformed models the fmt.Errorf value built when a
type assertion on a cache slot fails (context message plus the raw value). -/
inductive Error where
  | errNew (msg : String)
  | notFound
  | malformed (context : String) (v : CacheValue)
deriving DecidableEq

/-- A koding/cache in-memory cache: a string-keyed map, modelled as an
association list. -/
abbrev Cache := List (String × CacheValue)

/-- cache.Get: return the value stored under the key, or ErrNotFound. -/
def cacheGet : Cache → String → Except Error CacheValue
  | [], _ => .error .notFound
  | (k, v) :: rest, key => if k = key then .ok v else cacheGet rest key

/-- cache.Delete: remove every binding of the key (map semantics). -/
def cacheDelete : Cache → String → Cache
  | [], _ => []
  | (k, v) :: rest, key =>
      if k = key then cacheDelete rest key else (k, v) :: cacheDelete rest key

/-- cache.Set: insert the value under the key, overwriting any previous
binding (map semantics). -/
def cacheSet (c : Cache) (key : String) (v : CacheValue) : Cache :=
  (key, v) :: cacheDelete c key

/-- KeyPair.Validate (keypair.go): reject the first empty field in the order
ID, Public, Private, with the corresponding errors.New message. -/
def KeyPair.Validate (k : KeyPair) : Option Error :=
  if k.ID = "" then some (.errNew "KeyPair ID field is empty")
  else if k.Public = "" then some (.errNew "KeyPair Public field is empty")
  else if k.Private = "" then some (.errNew "KeyPair Private field is empty")
  else none

/-- MemKeyPairStorage (keypair.go): two independent caches, one keyed by ID
and one keyed by Public. -/
structure MemKeyPairStorage where
  id : Cache
  public : Cache
deriving DecidableEq

/-- NewMemKeyPairStorage: both caches start empty. -/
def NewMemKeyPairStorage : MemKeyPairStorage :=
  { id := [], public := [] }

/-- MemKeyPairStorage.AddKey: validate, abort on failure, otherwise write the
pair into the id cache and then into the public cache. Returns the Go error
result paired with the storage state after the call. -/
def MemKeyPairStorage.AddKey (m : MemKeyPairStorage) (keyPair : KeyPair) :
    Option Error × MemKeyPairStorage :=
  match keyPair.Validate with
  | some err => (some err, m)
  | none =>
      (none,
        { id := cacheSet m.id keyPair.ID (.keyPair keyPair),
          public := cacheSet m.public keyPair.Public (.keyPair keyPair) })

/-- MemKeyPairStorage.GetKeyFromID: look the id up in the id cache, propagate
its error, and type-assert the stored value to a KeyPair, reporting a
malformed value otherwise. The state is threaded unchanged because cache.Get
performs no write. -/
def MemKeyPairStorage.GetKeyFromID (m : MemKeyPairStorage) (id : String) :
    Except Error KeyPair × MemKeyPairStorage :=
  match cacheGet m.id id with
  | .error err => (.error err, m)
  | .ok (.keyPair keyPair) => (.ok keyPair, m)
  | .ok v =>
      (.error (.malformed "MemKeyPairStorage: GetKeyFromID value is malformed" v), m)

/-- MemKeyPairStorage.GetKeyFromPublic: same as GetKeyFromID, keyed by the
public key in the public cache. -/
def MemKeyPairStorage.GetKeyFromPublic (m : MemKeyPairStorage) (public : String) :
    Except Error KeyPair × MemKeyPairStorage :=
  match cacheGet m.public public with
  | .error err => (.error err, m)
  | .ok (.keyPair keyPair) => (.ok keyPair, m)
  | .ok v =>
      (.error (.malformed "MemKeyPairStorage: GetKeyFromPublic value is malformed" v), m)

/-- MemKeyPairStorage.DeleteKey: when the Public field of the request is
empty, resolve the current entry by ID (propagating its error) and delete its
Public key from the public cache; in every non-error path finish by deleting
the ID from the id cache. Note that when the Public field of the request is
populated the public cache is not touched: the delete of the public entry
sits inside the empty-Public branch in the source. -/
def MemKeyPairStorage.DeleteKey (m : MemKeyPairStorage) (keyPair : KeyPair) :
    Option Error × MemKeyPairStorage :=
  if keyPair.Public = "" then
    match m.GetKeyFromID keyPair.ID with
    | (.error err, m1) => (some err, m1)
    | (.ok k, m1) =>
        let m2 : MemKeyPairStorage := { m1 with public := cacheDelete m1.public k.Public }
        (none, { m2 with id := cacheDelete m2.id keyPair.ID })
  else
    (none, { m with id := cacheDelete m.id keyPair.ID })

/-- MemKeyPairStorage.IsValid: look the public key up, discard the value and
return the error result of the lookup. -/
def MemKeyPairStorage.IsValid (m : MemKeyPairStorage) (public : String) :
    Option Error × MemKeyPairStorage :=
  match m.GetKeyFromPublic public with
  | (.ok _, m1) => (none, m1)
  | (.error err, m1) => (some err, m1)

/-- An empty storage, used as a concrete starting state. -/
def emptyStore : MemKeyPairStorage := { id := [], public := [] }

/-- A fully populated key pair, used as a concrete input. -/
def kABC : KeyPair := { ID := "a", Public := "b", Private := "c" }

/-- A key pair with an empty ID field, used as a concrete invalid input. -/
def kpNoID : KeyPair := { ID := "", Public := "somePublic", Private := "somePrivate" }

/-- A fully populated key pair, used as a concrete input. -/
def kH1 : KeyPair := { ID := "h1", Public := "pub1", Private := "priv1" }

/-- A key pair with the same ID as kH1 but a different public key. -/
def kH1b : KeyPair := { ID := "h1", Public := "pub2", Private := "priv2" }

theorem cacheGet_cacheSet_self (c : Cache) (key : String) (v : CacheValue) :
    cacheGet (cacheSet c key v) key = .ok v := by
  simp [cacheSet, cacheGet]

theorem cacheGet_cacheDelete_self (c : Cache) (key : String) :
    cacheGet (cacheDelete c key) key = .error .notFound := by
  induction c with
  | nil => simp [cacheDelete, cacheGet]
  | cons hd tl ih =>
      obtain ⟨hk, hv⟩ := hd
      by_cases h : hk = key
      · simpa [cacheDelete, h] using ih
      · simpa [cacheDelete, cacheGet, h] using ih

theorem cacheGet_cacheDelete_ne (c : Cache) (key other : String) (h : other ≠ key) :
    cacheGet (cacheDelete c key) other = cacheGet c other := by
  induction c with
  | nil => simp [cacheDelete]
  | cons hd tl ih =>
      obtain ⟨hk, hv⟩ := hd
      by_cases hkey : hk = key
      · have hne : hk ≠ other := by
          intro hcontra
          exact h (hcontra ▸ hkey)
        simp [cacheDelete, cacheGet, hkey, hne, Ne.symm h, ih]
      · by_cases hother : hk = other
        · simp [cacheDelete, cacheGet, hkey, hother, h]
        · simp [cacheDelete, cacheGet, hkey, hother, ih]

theorem cacheGet_cacheSet_ne (c : Cache) (key other : String) (v : CacheValue)
    (h : other ≠ key) :
    cacheGet (cacheSet c key v) other = cacheGet c other := by
  have hne : key ≠ other := fun hcontra => h hcontra.symm
  simp [cacheSet, cacheGet, hne, cacheGet_cacheDelete_ne c key other h]

theorem cacheGet_error (c : Cache) (key : String) (e : Error)
    (h : cacheGet c key = .error e) : e = .notFound := by
  induction c with
  | nil =>
      simp [cacheGet] at h
      exact h.symm
  | cons hd tl ih =>
      obtain ⟨hk, hv⟩ := hd
      by_cases hkey : hk = key
      · simp [cacheGet, hkey] at h
      · simp [cacheGet, hkey] at h
        exact ih h

theorem getKeyFromID_state (m : MemKeyPairStorage) (id : String) :
    (m.GetKeyFromID id).2 = m := by
  unfold MemKeyPairStorage.GetKeyFromID
  cases h : cacheGet m.id id with
  | error err => simp
  | ok v => cases v <;> simp

theorem getKeyFromPublic_state (m : MemKeyPairStorage) (public : String) :
    (m.GetKeyFromPublic public).2 = m := by
  unfold MemKeyPairStorage.GetKeyFromPublic
  cases h : cacheGet m.public public with
  | error err => simp
  | ok v => cases v <;> simp

theorem isValid_state (m : MemKeyPairStorage) (public : String) :
    (m.IsValid public).2 = m := by
  unfold MemKeyPairStorage.IsValid
  have hstate := getKeyFromPublic_state m public
  cases h : m.GetKeyFromPublic public with
  | mk r m1 =>
      cases r <;> simp_all

theorem validate_none_of_nonempty (k : KeyPair)
    (hid : k.ID ≠ "") (hpub : k.Public ≠ "") (hpriv : k.Private ≠ "") :
    k.Validate = none := by
  unfold KeyPair.Validate
  simp [hid, hpub, hpriv]

theorem getKeyFromPublic_error_shape (m : MemKeyPairStorage) (pub : String) (e : Error)
    (h : (m.GetKeyFromPublic pub).1 = .error e) :
    e = .notFound ∨
      ∃ v, e = .malformed "MemKeyPairStorage: GetKeyFromPublic value is malformed" v := by
  unfold MemKeyPairStorage.GetKeyFromPublic at h
  cases hg : cacheGet m.public pub with
  | error err =>
      rw [hg] at h
      simp at h
      exact Or.inl (h ▸ cacheGet_error m.public pub err hg)
  | ok v =>
      cases v with
      | keyPair k => rw [hg] at h; simp at h
      | other t =>
          rw [hg] at h
          simp at h
          exact Or.inr ⟨.other t, h.symm⟩

/-- Claim C4: Validate succeeds iff all three fields ID, Public, Private are
non-empty; when it fails it returns the field-specific error message for the
first empty field, checking in the order ID, then Public, then Private. (It
is a pure function of the KeyPair, so it has no side effects.) -/
theorem validate_first_empty_field (k : KeyPair) :
    (k.Validate = none ↔ (k.ID ≠ "" ∧ k.Public ≠ "" ∧ k.Private ≠ "")) ∧
    (k.ID = "" → k.Validate = some (.errNew "KeyPair ID field is empty")) ∧
    (k.ID ≠ "" → k.Public = "" →
      k.Validate = some (.errNew "KeyPair Public field is empty")) ∧
    (k.ID ≠ "" → k.Public ≠ "" → k.Private = "" →
      k.Validate = some (.errNew "KeyPair Private field is empty")) := by
  unfold KeyPair.Validate
  by_cases h1 : k.ID = "" <;> by_cases h2 : k.Public = "" <;> by_cases h3 : k.Private = "" <;>
    simp [h1, h2, h3]

/-- Claim C2: for a KeyPair with at least one of ID, Public, Private empty,
AddKey fails with a validation error and performs no mutation, so lookups
that failed with NotFound before the call still fail with NotFound after. -/
theorem addKey_invalid_no_mutation (m : MemKeyPairStorage) (kp : KeyPair)
    (h : kp.ID = "" ∨ kp.Public = "" ∨ kp.Private = "") :
    (∃ msg, (m.AddKey kp).1 = some (.errNew msg)) ∧
    (m.AddKey kp).2 = m ∧
    ((m.GetKeyFromID kp.ID).1 = .error .notFound →
      (((m.AddKey kp).2).GetKeyFromID kp.ID).1 = .error .notFound) ∧
    ((m.GetKeyFromPublic kp.Public).1 = .error .notFound →
      (((m.AddKey kp).2).GetKeyFromPublic kp.Public).1 = .error .notFound) := by
  have hval : ∃ msg, kp.Validate = some (.errNew msg) := by
    unfold KeyPair.Validate
    by_cases h1 : kp.ID = ""
    · exact ⟨"KeyPair ID field is empty", by simp [h1]⟩
    · by_cases h2 : kp.Public = ""
      · exact ⟨"KeyPair Public field is empty", by simp [h1, h2]⟩
      · have h3 : kp.Private = "" := by tauto
        exact ⟨"KeyPair Private field is empty", by simp [h1, h2, h3]⟩
  obtain ⟨msg, hmsg⟩ := hval
  unfold MemKeyPairStorage.AddKey
  rw [hmsg]
  exact ⟨⟨msg, rfl⟩, rfl, fun hh => hh, fun hh => hh⟩

/-- Claim C2 witness: a concrete invalid KeyPair (empty ID) on the empty
store. -/
theorem addKey_invalid_no_mutation_witness :
    (kpNoID.ID = "" ∨ kpNoID.Public = "" ∨ kpNoID.Private = "") ∧
    (∃ msg, (emptyStore.AddKey kpNoID).1 = some (.errNew msg)) ∧
    (emptyStore.AddKey kpNoID).2 = emptyStore := by
  have h := addKey_invalid_no_mutation emptyStore kpNoID (Or.inl rfl)
  exact ⟨Or.inl rfl, h.1, h.2.1⟩

/-- Claim C3: for a valid KeyPair (all three fields non-empty), AddKey
succeeds and afterwards GetKeyFromID on its ID and GetKeyFromPublic on its
Public both return exactly that KeyPair. -/
theorem addKey_lookup_roundtrip (m : MemKeyPairStorage) (k : KeyPair)
    (hid : k.ID ≠ "") (hpub : k.Public ≠ "") (hpriv : k.Private ≠ "") :
    (m.AddKey k).1 = none ∧
    (((m.AddKey k).2).GetKeyFromID k.ID).1 = .ok k ∧
    (((m.AddKey k).2).GetKeyFromPublic k.Public).1 = .ok k := by
  have hval : k.Validate = none := validate_none_of_nonempty k hid hpub hpriv
  unfold MemKeyPairStorage.AddKey
  rw [hval]
  refine ⟨rfl, ?_, ?_⟩
  · unfold MemKeyPairStorage.GetKeyFromID
    simp [cacheGet_cacheSet_self]
  · unfold MemKeyPairStorage.GetKeyFromPublic
    simp [cacheGet_cacheSet_self]

/-- Claim C3 witness: the concrete valid pair kH1 on the empty store. -/
theorem addKey_lookup_roundtrip_witness :
    kH1.ID ≠ "" ∧ kH1.Public ≠ "" ∧ kH1.Private ≠ "" ∧
    (emptyStore.AddKey kH1).1 = none ∧
    (((emptyStore.AddKey kH1).2).GetKeyFromID kH1.ID).1 = .ok kH1 ∧
    (((emptyStore.AddKey kH1).2).GetKeyFromPublic kH1.Public).1 = .ok kH1 := by
  have h := addKey_lookup_roundtrip emptyStore kH1 (by decide) (by decide) (by decide)
  exact ⟨by decide, by decide, by decide, h.1, h.2.1, h.2.2⟩

/-- Claim C5: for a valid KeyPair k, after AddKey succeeds, DeleteKey with a
request carrying the ID of k and an empty Public field succeeds and removes
both index entries: afterwards GetKeyFromID on the ID and GetKeyFromPublic
on the Public key of k both fail with NotFound. -/
theorem deleteKey_by_id_removes_both (m : MemKeyPairStorage) (k : KeyPair) (pr : String)
    (hid : k.ID ≠ "") (hpub : k.Public ≠ "") (hpriv : k.Private ≠ "") :
    (((m.AddKey k).2).DeleteKey { ID := k.ID, Public := "", Private := pr }).1 = none ∧
    (((((m.AddKey k).2).DeleteKey
        { ID := k.ID, Public := "", Private := pr }).2).GetKeyFromID k.ID).1 =
      .error .notFound ∧
    (((((m.AddKey k).2).DeleteKey
        { ID := k.ID, Public := "", Private := pr }).2).GetKeyFromPublic k.Public).1 =
      .error .notFound := by
  have hval : k.Validate = none := validate_none_of_nonempty k hid hpub hpriv
  unfold MemKeyPairStorage.DeleteKey MemKeyPairStorage.AddKey
    MemKeyPairStorage.GetKeyFromID MemKeyPairStorage.GetKeyFromPublic
  rw [hval]
  simp [cacheGet_cacheSet_self, cacheGet_cacheDelete_self]

/-- Claim C5 witness: adding the concrete pair kH1 to the empty store and
deleting it by ID alone. -/
theorem deleteKey_by_id_removes_both_witness :
    kH1.ID ≠ "" ∧ kH1.Public ≠ "" ∧ kH1.Private ≠ "" ∧
    (((emptyStore.AddKey kH1).2).DeleteKey
      { ID := kH1.ID, Public := "", Private := "x" }).1 = none ∧
    (((((emptyStore.AddKey kH1).2).DeleteKey
        { ID := kH1.ID, Public := "", Private := "x" }).2).GetKeyFromID kH1.ID).1 =
      .error .notFound ∧
    (((((emptyStore.AddKey kH1).2).DeleteKey
        { ID := kH1.ID, Public := "", Private := "x" }).2).GetKeyFromPublic kH1.Public).1 =
      .error .notFound := by
  have h := deleteKey_by_id_removes_both emptyStore kH1 "x" (by decide) (by decide) (by decide)
  exact ⟨by decide, by decide, by decide, h.1, h.2.1, h.2.2⟩

/-- Claim C7: adding a second valid KeyPair with the same ID but a different
Public key overwrites the id-index entry, so GetKeyFromID returns the new
pair, while the old public-index mapping is left stale: GetKeyFromPublic on
the old Public key still returns the first pair. -/
theorem addKey_overwrite_stale_public (m : MemKeyPairStorage) (k1 k2 : KeyPair)
    (h1i : k1.ID ≠ "") (h1p : k1.Public ≠ "") (h1r : k1.Private ≠ "")
    (h2i : k2.ID ≠ "") (h2p : k2.Public ≠ "") (h2r : k2.Private ≠ "")
    (hid : k1.ID = k2.ID) (hpub : k1.Public ≠ k2.Public) :
    (m.AddKey k1).1 = none ∧
    (((m.AddKey k1).2).AddKey k2).1 = none ∧
    (((((m.AddKey k1).2).AddKey k2).2).GetKeyFromID k1.ID).1 = .ok k2 ∧
    (((((m.AddKey k1).2).AddKey k2).2).GetKeyFromPublic k1.Public).1 = .ok k1 := by
  have hval1 : k1.Validate = none := validate_none_of_nonempty k1 h1i h1p h1r
  have hval2 : k2.Validate = none := validate_none_of_nonempty k2 h2i h2p h2r
  unfold MemKeyPairStorage.AddKey MemKeyPairStorage.GetKeyFromID
    MemKeyPairStorage.GetKeyFromPublic
  rw [hval1, hval2]
  refine ⟨rfl, rfl, ?_, ?_⟩
  · rw [hid]
    simp [cacheGet_cacheSet_self]
  · have hstale := cacheGet_cacheSet_ne
      (cacheSet m.public k1.Public (.keyPair k1)) k2.Public k1.Public (.keyPair k2) hpub
    simp [hstale, cacheGet_cacheSet_self]

/-- Claim C7 witness: two concrete pairs sharing the ID h1 with different
public keys, on the empty store. -/
theorem addKey_overwrite_stale_public_witness :
    kH1.ID = kH1b.ID ∧ kH1.Public ≠ kH1b.Public ∧
    (((((emptyStore.AddKey kH1).2).AddKey kH1b).2).GetKeyFromID kH1.ID).1 = .ok kH1b ∧
    (((((emptyStore.AddKey kH1).2).AddKey kH1b).2).GetKeyFromPublic kH1.Public).1 =
      .ok kH1 := by
  have h := addKey_overwrite_stale_public emptyStore kH1 kH1b (by decide) (by decide)
    (by decide) (by decide) (by decide) (by decide) (by decide) (by decide)
  exact ⟨by decide, by decide, h.2.2.1, h.2.2.2⟩

/-- Claim C8: DeleteKey with an empty Public field and an ID that has no
entry in the id index fails with NotFound and leaves the storage unchanged. -/
theorem deleteKey_missing_id_notFound (m : MemKeyPairStorage) (id pr : String)
    (h : cacheGet m.id id = .error .notFound) :
    m.DeleteKey { ID := id, Public := "", Private := pr } = (some .notFound, m) := by
  unfold MemKeyPairStorage.DeleteKey MemKeyPairStorage.GetKeyFromID
  simp [h]

/-- Claim C8 witness: deleting an absent ID from the empty store. -/
theorem deleteKey_missing_id_notFound_witness :
    cacheGet emptyStore.id "x" = .error .notFound ∧
    emptyStore.DeleteKey { ID := "x", Public := "", Private := "p" } =
      (some .notFound, emptyStore) :=
  ⟨rfl, deleteKey_missing_id_notFound emptyStore "x" "p" rfl⟩

/-- Claim C9: DeleteKey with a non-empty Public field always succeeds
(returns a nil error), for every storage state, including when no entry
exists for the given ID; NotFound is never raised on this path. -/
theorem deleteKey_public_populated_succeeds (m : MemKeyPairStorage) (kp : KeyPair)
    (h : kp.Public ≠ "") :
    (m.DeleteKey kp).1 = none := by
  unfold MemKeyPairStorage.DeleteKey
  simp [h]

/-- Claim C9 witness: deleting the pair kABC from the empty store, where no
entry exists for its ID, still succeeds because its Public field is
populated. -/
theorem deleteKey_public_populated_succeeds_witness :
    kABC.Public ≠ "" ∧ (emptyStore.DeleteKey kABC).1 = none :=
  ⟨by decide, deleteKey_public_populated_succeeds emptyStore kABC (by decide)⟩

/-- Claim C6: IsValid succeeds exactly when GetKeyFromPublic succeeds on the
same state, and when the lookup fails IsValid returns exactly the same
error, which is always either NotFound or a malformed-value error. -/
theorem isValid_matches_lookup (m : MemKeyPairStorage) (pub : String) :
    ((m.IsValid pub).1 = none ↔ ∃ k, (m.GetKeyFromPublic pub).1 = .ok k) ∧
    (∀ e, (m.GetKeyFromPublic pub).1 = .error e → (m.IsValid pub).1 = some e) ∧
    (∀ e, (m.GetKeyFromPublic pub).1 = .error e →
      e = .notFound ∨
        ∃ v, e = .malformed "MemKeyPairStorage: GetKeyFromPublic value is malformed" v) := by
  refine ⟨?_, ?_, fun e he => getKeyFromPublic_error_shape m pub e he⟩
  · unfold MemKeyPairStorage.IsValid
    rcases hlook : m.GetKeyFromPublic pub with ⟨r, m1⟩
    cases r with
    | ok k => simp
    | error e => simp
  · intro e he
    unfold MemKeyPairStorage.IsValid
    rcases hlook : m.GetKeyFromPublic pub with ⟨r, m1⟩
    rw [hlook] at he
    simp at he
    rw [he]

/-- Claim C10: GetKeyFromID, GetKeyFromPublic and IsValid never mutate the
storage: for every input and every storage state, the state each call
returns equals the state it was given, whether the call succeeds or fails. -/
theorem getters_preserve_state (m : MemKeyPairStorage) (id pub pubV : String) :
    (m.GetKeyFromID id).2 = m ∧ (m.GetKeyFromPublic pub).2 = m ∧ (m.IsValid pubV).2 = m :=
  ⟨getKeyFromID_state m id, getKeyFromPublic_state m pub, isValid_state m pubV⟩

/-- Claim C1 evaluation: after AddKey of the valid pair kABC, calling
DeleteKey with the Public field populated succeeds and removes the id-index
entry, but the public-index entry survives: GetKeyFromPublic still returns
the pair instead of failing with NotFound. The delete of the public-index
entry sits inside the empty-Public branch of DeleteKey, so it is skipped
exactly when the request carries the public key. -/
theorem deleteKey_public_populated_leaves_public_entry :
    (emptyStore.AddKey kABC).1 = none ∧
    (((emptyStore.AddKey kABC).2).DeleteKey kABC).1 = none ∧
    (((((emptyStore.AddKey kABC).2).DeleteKey kABC).2).GetKeyFromID "a").1 =
      .error .notFound ∧
    (((((emptyStore.AddKey kABC).2).DeleteKey kABC).2).GetKeyFromPublic "b").1 =
      .ok kABC := by
  refine ⟨rfl, rfl, rfl, rfl⟩

end Kite
